import Mathlib

/-!
# Verification of the gemini_business gateway core

A shallow embedding, in Lean 4, of the core data model and operations of the
gemini_business repository (a multi-tenant gateway in JavaScript), together
with theorems settling the frozen claims C1..C10 about its specification.

Each definition is translated from one source function and carries a comment
naming it.  External library functions (Node `crypto`, `CryptoJS.AES`,
`JSON.parse`, base64url codecs, HMAC) are not part of the repository; the
embeddings take them as function parameters, and hypotheses about them state
only documented library behaviour.

JavaScript numbers in the modelled code are small integers; they are embedded
as `Int`/`Nat`, and the two genuinely fractional computations (token
estimation, weighted random selection) as `Rat`.
-/

set_option maxRecDepth 4096

namespace Gateway

/- ============================================================ -/
/- Provider data model (src/src/models/provider.js, concatenated
   into the src/src/utils/crypto.js snapshot)                    -/
/- ============================================================ -/

/-- `status ∈ {active, cooling, failed, inactive}` column of the
providers table. -/
inductive ProviderStatus where
  | active
  | cooling
  | failed
  | inactive
deriving DecidableEq, Repr

/-- One row of the `providers` table, restricted to the columns the core
operations read or write.  Timestamps are epoch milliseconds as `Int`. -/
structure Provider where
  id : Nat
  status : ProviderStatus
  health_score : Int
  current_load : Int
  max_concurrent : Int
  consecutive_failures : Int
  total_requests : Int
  failed_requests : Int
  cooldown_until : Option Int
  last_success_at : Option Int
  last_failure_at : Option Int
deriving DecidableEq, Repr

/-- Scheduler/provider configuration (src/src/config/index.js
`config.provider`): health threshold (default 50), failure threshold
(default 5), cooldown duration in ms (default 300000). -/
structure SchedConfig where
  healthThreshold : Int
  failureThreshold : Int
  cooldownDuration : Int
deriving Repr

/-- `Provider.recordFailure` (crypto.js snapshot lines 165-198): read the
row, bump `consecutive_failures`, derive the new status from the thresholds
and write back.  `now` is `Date.now()`. -/
def recordFailure (cfg : SchedConfig) (now : Int) (p : Provider) : Provider :=
  let failures := p.consecutive_failures + 1
  let newStatus1 :=
    if failures ≥ cfg.failureThreshold then ProviderStatus.cooling else p.status
  let cooldownUntil : Option Int :=
    if failures ≥ cfg.failureThreshold then some (now + cfg.cooldownDuration) else none
  let newStatus2 :=
    if failures ≥ cfg.failureThreshold * 2 then ProviderStatus.failed else newStatus1
  { p with
    consecutive_failures := failures
    last_failure_at := some now
    health_score := max 0 (p.health_score - 10)
    failed_requests := p.failed_requests + 1
    total_requests := p.total_requests + 1
    status := newStatus2
    cooldown_until :=
      match cooldownUntil with
      | some c => some c
      | none => p.cooldown_until }

/-- `Provider.recordSuccess` (crypto.js snapshot lines 151-160): single
UPDATE statement. -/
def recordSuccess (now : Int) (p : Provider) : Provider :=
  { p with
    consecutive_failures := 0
    last_success_at := some now
    health_score := min 100 (p.health_score + 1)
    total_requests := p.total_requests + 1 }

/-- `Provider.incrementLoad`: `current_load = current_load + 1`. -/
def incrementLoad (p : Provider) : Provider :=
  { p with current_load := p.current_load + 1 }

/-- `Provider.decrementLoad`: `current_load = GREATEST(0, current_load - 1)`. -/
def decrementLoad (p : Provider) : Provider :=
  { p with current_load := max 0 (p.current_load - 1) }

/-- Apply a per-row update to the row with the given id (single-row UPDATE
keyed on the primary key). -/
def dbUpdate (db : List Provider) (id : Nat) (f : Provider → Provider) : List Provider :=
  db.map fun p => if p.id = id then f p else p

end Gateway

/- ============================================================ -/
/- C7: failure outcome accounting                                -/
/- ============================================================ -/

namespace Gateway

/-- **C7.** For every provider and every recorded failure outcome, the
post-state satisfies: `consecutive_failures` is incremented by 1,
`health_score` becomes `max 0 (previous - 10)`, `failed_requests` and
`total_requests` each increase by 1; if the new `consecutive_failures` is at
least the failure threshold then the status becomes `cooling` with
`cooldown_until = now + cooldownDuration`; if it is at least twice the
threshold the status becomes `failed` instead. -/
theorem recordFailure_spec (cfg : SchedConfig) (now : Int) (p : Provider) :
    (recordFailure cfg now p).consecutive_failures = p.consecutive_failures + 1 ∧
    (recordFailure cfg now p).health_score = max 0 (p.health_score - 10) ∧
    (recordFailure cfg now p).failed_requests = p.failed_requests + 1 ∧
    (recordFailure cfg now p).total_requests = p.total_requests + 1 ∧
    (p.consecutive_failures + 1 ≥ cfg.failureThreshold →
      (recordFailure cfg now p).cooldown_until = some (now + cfg.cooldownDuration) ∧
      (p.consecutive_failures + 1 ≥ cfg.failureThreshold * 2 →
        (recordFailure cfg now p).status = ProviderStatus.failed) ∧
      (p.consecutive_failures + 1 < cfg.failureThreshold * 2 →
        (recordFailure cfg now p).status = ProviderStatus.cooling)) := by
  refine ⟨rfl, rfl, rfl, rfl, fun hth => ⟨?_, fun h2 => ?_, fun h2 => ?_⟩⟩
  · simp [recordFailure, if_pos hth]
  · simp [recordFailure, if_pos hth, if_pos h2]
  · simp [recordFailure, if_pos hth, if_neg (not_le.mpr h2)]

/-- Witness for C7: the spec's scenario 4 — a provider with four consecutive
failures and the default thresholds crosses into `cooling` on the fifth. -/
theorem recordFailure_spec_witness :
    (recordFailure ⟨50, 5, 300000⟩ 1000 ⟨7, .active, 80, 0, 10, 4, 20, 4, none, none, none⟩).cooldown_until
      = some 301000 ∧
    (recordFailure ⟨50, 5, 300000⟩ 1000 ⟨7, .active, 80, 0, 10, 4, 20, 4, none, none, none⟩).status
      = ProviderStatus.cooling := by
  have h := recordFailure_spec ⟨50, 5, 300000⟩ 1000
    ⟨7, .active, 80, 0, 10, 4, 20, 4, none, none, none⟩
  rcases h with ⟨-, -, -, -, h5⟩
  rcases h5 (by norm_num) with ⟨h7, -, h9⟩
  exact ⟨h7, h9 (by norm_num)⟩

end Gateway

/- ============================================================ -/
/- C9: credential cipher wrapper (src/src/utils/crypto.js)       -/
/- ============================================================ -/

namespace Gateway

/-- `encrypt` (crypto.js lines 14-17).  `CryptoJS.AES.encrypt(..).toString()`
is an external library call, taken here as the parameter `aesEnc`; the
process-wide secret key is fixed inside it.  `if (!text) return text` is the
JavaScript falsy check, which for strings is the empty-string check. -/
def encrypt (aesEnc : String → String) (text : String) : String :=
  if text = "" then text else aesEnc text

/-- `decrypt` (crypto.js lines 22-31).  The library decryption is the
parameter `aesDec`, returning `none` when `CryptoJS.AES.decrypt` throws or
yields no UTF-8 plaintext; the `catch` branch returns the ciphertext
unchanged (legacy plaintext rows). -/
def decrypt (aesDec : String → Option String) (ciphertext : String) : String :=
  if ciphertext = "" then ciphertext
  else
    match aesDec ciphertext with
    | some plain => plain
    | none => ciphertext

/-- **C9.** For every credential string `s`, `decrypt (encrypt s) = s`: the
repository's wrapper preserves the round-trip identity of the underlying
cipher.  The two hypotheses state the documented behaviour of `CryptoJS.AES`
with a fixed key: decryption inverts encryption, and the Base64 ciphertext of
a non-empty plaintext is non-empty. -/
theorem decrypt_encrypt (aesEnc : String → String) (aesDec : String → Option String)
    (hinv : ∀ s : String, s ≠ "" → aesDec (aesEnc s) = some s)
    (hne : ∀ s : String, s ≠ "" → aesEnc s ≠ "")
    (s : String) : decrypt aesDec (encrypt aesEnc s) = s := by
  by_cases hs : s = ""
  · subst hs; simp [encrypt, decrypt]
  · simp only [encrypt, if_neg hs, decrypt, if_neg (hne s hs), hinv s hs]

/-- Witness for C9, instantiating the cipher parameters with a concrete
inverse pair. -/
theorem decrypt_encrypt_witness :
    decrypt (fun c => some c) (encrypt (fun s => s) "cookie-bag") = "cookie-bag" :=
  decrypt_encrypt (fun s => s) (fun c => some c)
    (fun _ _ => rfl) (fun _ h => h) "cookie-bag"

end Gateway

/- ============================================================ -/
/- C8: bearer-token derivation (gemini-client.js lines 124-171)  -/
/- ============================================================ -/

namespace Gateway

/-- The `getoxsrf` fetch result used by `_buildBearerToken`: the key id, the
server cross-site-request token, and the server-reported expiration instant
(already parsed to epoch milliseconds, as `new Date(...).getTime()` does). -/
structure TokenData where
  keyId : String
  xsrfToken : String
  expirationTimeMs : Int
deriving Repr

/-- The JWT header literal of `_buildBearerToken`. -/
structure JwtHeader where
  alg : String
  typ : String
  kid : String
deriving Repr

/-- The JWT payload literal of `_buildBearerToken`. -/
structure JwtPayload where
  iss : String
  aud : String
  sub : String
  iat : Int
  exp : Int
  nbf : Int
deriving Repr

/-- `Math.floor(Date.now() / 1000)` and
`Math.floor(new Date(..).getTime() / 1000)`: floor division of epoch
milliseconds. -/
def epochSeconds (ms : Int) : Int := Int.fdiv ms 1000

/-- The `header` literal of `_buildBearerToken`. -/
def bearerHeader (td : TokenData) : JwtHeader :=
  { alg := "HS256", typ := "JWT", kid := td.keyId }

/-- The `payload` literal of `_buildBearerToken` (`now` is
`Math.floor(Date.now()/1000)`, `expTime` the server expiration in seconds). -/
def bearerPayload (csesidx : String) (td : TokenData) (nowMs : Int) : JwtPayload :=
  let now := epochSeconds nowMs
  let expTime := epochSeconds td.expirationTimeMs
  { iss := "https://business.gemini.google"
    aud := "https://biz-discoveryengine.googleapis.com"
    sub := "csesidx/" ++ csesidx
    iat := now
    exp := now + min 300 (expTime - now)
    nbf := now }

/-- `_buildBearerToken` (gemini-client.js lines 124-171).  The external
codecs are parameters: `encH`/`encP` are `base64urlEncode ∘ JSON.stringify`
on the header and payload records, `decodeKey` is `base64urlDecode` (to a
byte buffer of type `Key`), and `hmacSHA256` is the keyed digest re-encoded
base64url, exactly as in the source. -/
def buildBearerToken {Key : Type} (encH : JwtHeader → String) (encP : JwtPayload → String)
    (decodeKey : String → Key) (hmacSHA256 : Key → String → String)
    (csesidx : String) (td : TokenData) (nowMs : Int) : String :=
  let headerB64 := encH (bearerHeader td)
  let payloadB64 := encP (bearerPayload csesidx td nowMs)
  let message := headerB64 ++ "." ++ payloadB64
  let key := decodeKey td.xsrfToken
  let signature := hmacSHA256 key message
  message ++ "." ++ signature

/-- **C8.** For every refreshed token, the derived bearer JWT's payload has
`exp = min (now + 300) serverExp` (the code computes
`now + min 300 (serverExp - now)`, which is the same integer), with
`iat = nbf = now`, and the token is
`base64url(header) ++ "." ++ base64url(payload) ++ "." ++ sig` where `sig`
is HMAC-SHA-256 over that dotted message keyed by the base64url-decoded
server token. -/
theorem buildBearerToken_spec {Key : Type} (encH : JwtHeader → String)
    (encP : JwtPayload → String) (decodeKey : String → Key)
    (hmacSHA256 : Key → String → String) (csesidx : String) (td : TokenData)
    (nowMs : Int) :
    (bearerPayload csesidx td nowMs).exp
        = min (epochSeconds nowMs + 300) (epochSeconds td.expirationTimeMs) ∧
    (bearerPayload csesidx td nowMs).iat = epochSeconds nowMs ∧
    (bearerPayload csesidx td nowMs).nbf = epochSeconds nowMs ∧
    buildBearerToken encH encP decodeKey hmacSHA256 csesidx td nowMs
        = encH (bearerHeader td) ++ "." ++ encP (bearerPayload csesidx td nowMs)
          ++ "." ++
          hmacSHA256 (decodeKey td.xsrfToken)
            (encH (bearerHeader td) ++ "." ++ encP (bearerPayload csesidx td nowMs)) := by
  refine ⟨?_, rfl, rfl, rfl⟩
  show epochSeconds nowMs + min 300 (epochSeconds td.expirationTimeMs - epochSeconds nowMs)
      = _
  omega

end Gateway

/- ============================================================ -/
/- C10: usage metadata of the unary response                     -/
/-      (request-executor.js lines 371-428)                      -/
/- ============================================================ -/

namespace Gateway

/-- The regex class `[一-鿿]` of `_estimateTokens`. -/
def isCjk (c : Char) : Bool := 0x4e00 ≤ c.toNat ∧ c.toNat ≤ 0x9fff

/-- `RequestExecutor._estimateTokens` (request-executor.js lines 423-428):
`ceil(cjk_chars / 1.5 + other_chars / 4)`, with `0` for an empty (falsy)
string.  All modelled text is in the basic multilingual plane, where the
JavaScript UTF-16 `length` is the character count. -/
def estimateTokens (text : String) : Int :=
  if text = "" then 0
  else
    let chineseChars : Int := (text.data.filter isCjk).length
    let otherChars : Int := (text.length : Int) - chineseChars
    Int.ceil ((chineseChars : ℚ) / 1.5 + (otherChars : ℚ) / 4)

/-- The `parseResponse` result consumed by `_buildResponse`. -/
structure ParsedResponse where
  thoughts : List String
  content : String
  state : String
deriving Repr

/-- One part of the public-API candidate content. -/
inductive ResponsePart where
  | thought (text : String)
  | text (t : String)
  | inlineData (mimeType : String) (data : String)
deriving DecidableEq, Repr

/-- The `usageMetadata` block. -/
structure UsageMetadata where
  promptTokenCount : Int
  candidatesTokenCount : Int
  totalTokenCount : Int
deriving DecidableEq, Repr

/-- The unary public-API response, restricted to the fields
`_buildResponse` computes. -/
structure GeminiResponse where
  parts : List ResponsePart
  finishReason : String
  usageMetadata : UsageMetadata
  modelVersion : String
deriving DecidableEq, Repr

/-- `RequestExecutor._buildResponse` (request-executor.js lines 371-418).
`imageData` is `some (mimeType, data)` when an image was fetched;
`includeThoughts` is `thinkingConfig?.includeThoughts`. -/
def buildResponse (parsed : ParsedResponse) (imageData : Option (String × String))
    (model : String) (includeThoughts : Bool) : GeminiResponse :=
  let parts :=
    (if includeThoughts ∧ parsed.thoughts ≠ [] then
        parsed.thoughts.map ResponsePart.thought
      else []) ++
    (if parsed.content ≠ "" then [ResponsePart.text parsed.content] else []) ++
    (match imageData with
     | some (m, d) => [ResponsePart.inlineData m d]
     | none => [])
  let promptTokens := estimateTokens parsed.content
  let candidateTokens := estimateTokens parsed.content +
    parsed.thoughts.foldl (fun sum t => sum + estimateTokens t) 0
  { parts := parts
    finishReason := if parsed.state = "SUCCEEDED" then "STOP" else "MAX_TOKENS"
    usageMetadata :=
      { promptTokenCount := promptTokens
        candidatesTokenCount := candidateTokens
        totalTokenCount := promptTokens + candidateTokens }
    modelVersion := if model = "" then "gemini-2.0-flash-exp" else model }

/-- `reduce((sum, t) => sum + est(t), 0)` is the sum of the estimates. -/
theorem foldl_estimate_eq_sum (ts : List String) (a : Int) :
    ts.foldl (fun sum t => sum + estimateTokens t) a
      = a + (ts.map estimateTokens).sum := by
  induction ts generalizing a with
  | nil => simp
  | cons t ts ih => simp [ih, add_assoc]

/-- **C10.** In every unary `generateContent` response,
`usageMetadata.promptTokenCount` is the token estimate of the generated
non-thought response text `parsed.content` (the caller's query is not an
input of `_buildResponse` at all), so it equals the content component of
`candidatesTokenCount`, and
`totalTokenCount = promptTokenCount + candidatesTokenCount`. -/
theorem buildResponse_usage (parsed : ParsedResponse)
    (imageData : Option (String × String)) (model : String)
    (includeThoughts : Bool) :
    (buildResponse parsed imageData model includeThoughts).usageMetadata.promptTokenCount
        = estimateTokens parsed.content ∧
    (buildResponse parsed imageData model includeThoughts).usageMetadata.candidatesTokenCount
        = estimateTokens parsed.content + (parsed.thoughts.map estimateTokens).sum ∧
    (buildResponse parsed imageData model includeThoughts).usageMetadata.totalTokenCount
        = (buildResponse parsed imageData model includeThoughts).usageMetadata.promptTokenCount
          + (buildResponse parsed imageData model includeThoughts).usageMetadata.candidatesTokenCount := by
  refine ⟨rfl, ?_, rfl⟩
  show estimateTokens parsed.content +
      parsed.thoughts.foldl (fun sum t => sum + estimateTokens t) 0 = _
  rw [foldl_estimate_eq_sum, zero_add]

end Gateway

/- ============================================================ -/
/- C5: session fingerprints (src/src/utils/hash.js lines 40-82)  -/
/- ============================================================ -/

namespace Gateway

/-- One element of a message's `parts` array; `text` is absent or a string. -/
structure MsgPart where
  text : Option String
deriving DecidableEq, Repr

/-- One public-API message: a role and a `parts` array (absent or not an
array is modelled as `none`). -/
structure ChatMsg where
  role : String
  parts : Option (List MsgPart)
deriving DecidableEq, Repr

/-- `extractTextFromParts` (hash.js lines 40-46): keep the parts whose
`text` is truthy (present and non-empty), take their texts and join with
newline. -/
def extractTextFromParts (parts : Option (List MsgPart)) : String :=
  match parts with
  | none => ""
  | some ps =>
      String.intercalate "\n" (((ps.filterMap (·.text)).filter (· ≠ "")))

/-- The text of one message, as the hashing code reads it. -/
def msgText (m : ChatMsg) : String := extractTextFromParts m.parts

/-- `generateSessionHashes` (hash.js lines 53-82), parameterised by the
external `md5` digest and by the `randomString(32)` drawn on the
no-user-message path.  `slice(0, 5)` is `take 5` and `slice(-5)` is
`drop (length - 5)` (saturating, as in JavaScript). -/
def generateSessionHashes (md5 : String → String) (random : String)
    (messages : Option (List ChatMsg)) : String × String :=
  match messages with
  | none => (md5 random, md5 random)
  | some msgs =>
      if msgs = [] then (md5 random, md5 random)
      else
        let userMessages := msgs.filter (fun m => m.role = "user")
        if userMessages = [] then (md5 random, md5 random)
        else
          let headText := String.intercalate "|||"
            ((userMessages.take 5).map msgText)
          let tailText := String.intercalate "|||"
            ((userMessages.drop (userMessages.length - 5)).map msgText)
          (md5 headText, md5 tailText)

/-- **C5.** For every message list with `n ≥ 1` user-authored messages, the
fingerprints are `head = md5` of the `"|||"`-join of the first `min 5 n`
user messages' texts and `tail = md5` of the join of the last `min 5 n`
texts (each message's text extracted by `extractTextFromParts`); when
`n = 5` the two hashes are equal; and the pair depends only on the sequence
of user-message texts. -/
theorem generateSessionHashes_spec (md5 : String → String) (random : String)
    (msgs : List ChatMsg)
    (hn : 1 ≤ (msgs.filter (fun m => m.role = "user")).length) :
    generateSessionHashes md5 random (some msgs)
        = (md5 (String.intercalate "|||"
              (((msgs.filter (fun m => m.role = "user")).take
                  (min 5 (msgs.filter (fun m => m.role = "user")).length)).map msgText)),
           md5 (String.intercalate "|||"
              (((msgs.filter (fun m => m.role = "user")).drop
                  ((msgs.filter (fun m => m.role = "user")).length
                    - min 5 (msgs.filter (fun m => m.role = "user")).length)).map msgText))) ∧
    ((msgs.filter (fun m => m.role = "user")).length = 5 →
      (generateSessionHashes md5 random (some msgs)).1
        = (generateSessionHashes md5 random (some msgs)).2) ∧
    (∀ msgs2 : List ChatMsg,
      (msgs2.filter (fun m => m.role = "user")).map msgText
          = (msgs.filter (fun m => m.role = "user")).map msgText →
      generateSessionHashes md5 random (some msgs2)
        = generateSessionHashes md5 random (some msgs)) := by
  set u := msgs.filter (fun m => m.role = "user") with hu
  have hune : u ≠ [] := by
    intro h; rw [h] at hn; simp at hn
  have hmne : msgs ≠ [] := by
    intro h
    apply hune
    rw [hu, h]
    rfl
  have hmain : generateSessionHashes md5 random (some msgs)
      = (md5 (String.intercalate "|||" ((u.take 5).map msgText)),
         md5 (String.intercalate "|||" ((u.drop (u.length - 5)).map msgText))) := by
    simp only [generateSessionHashes, if_neg hmne, ← hu, if_neg hune]
  have htake : u.take (min 5 u.length) = u.take 5 := by
    rcases Nat.le_total 5 u.length with h | h
    · rw [min_eq_left h]
    · rw [min_eq_right h, List.take_length, List.take_of_length_le h]
  have hmin : u.length - min 5 u.length = u.length - 5 := by omega
  refine ⟨?_, ?_, ?_⟩
  · rw [hmain, htake, hmin]
  · intro h5
    rw [hmain]
    have : u.take 5 = u := List.take_of_length_le (by omega)
    have hdrop : u.drop (u.length - 5) = u := by
      rw [h5]; simp
    rw [this, hdrop]
  · intro msgs2 heq
    set v := msgs2.filter (fun m => m.role = "user") with hv
    have hvne : v ≠ [] := by
      intro h
      rw [h] at heq
      exact hune (List.map_eq_nil_iff.mp heq.symm)
    have hm2ne : msgs2 ≠ [] := by
      intro h; apply hvne; rw [hv, h]; rfl
    have hmain2 : generateSessionHashes md5 random (some msgs2)
        = (md5 (String.intercalate "|||" ((v.take 5).map msgText)),
           md5 (String.intercalate "|||" ((v.drop (v.length - 5)).map msgText))) := by
      simp only [generateSessionHashes, if_neg hm2ne, ← hv, if_neg hvne]
    have hlen : v.length = u.length := by
      have := congrArg List.length heq
      simpa using this
    rw [hmain, hmain2]
    have h1 : (v.take 5).map msgText = (u.take 5).map msgText := by
      rw [List.map_take, List.map_take, heq]
    have h2 : (v.drop (v.length - 5)).map msgText
        = (u.drop (u.length - 5)).map msgText := by
      rw [List.map_drop, List.map_drop, heq, hlen]
    rw [h1, h2]

/-- Witness for C5: two user messages (spec scenario 2 shape) — the head and
tail joins both cover the two texts. -/
theorem generateSessionHashes_spec_witness :
    generateSessionHashes (fun s => "h:" ++ s) "r"
        (some [⟨"user", some [⟨some "Hello"⟩]⟩,
               ⟨"model", some [⟨some "Hi"⟩]⟩,
               ⟨"user", some [⟨some "follow up"⟩]⟩])
      = ("h:" ++ "Hello|||follow up", "h:" ++ "Hello|||follow up") := by
  have h := (generateSessionHashes_spec (fun s => "h:" ++ s) "r"
      [⟨"user", some [⟨some "Hello"⟩]⟩,
       ⟨"model", some [⟨some "Hi"⟩]⟩,
       ⟨"user", some [⟨some "follow up"⟩]⟩] (by decide)).1
  rw [h]
  rfl

end Gateway

/- ============================================================ -/
/- C6: session lookup (src/src/models/session.js lines 19-61)    -/
/- ============================================================ -/

namespace Gateway

/-- One row of the `sessions` table, restricted to the columns
`findMatchingSession` reads or writes. -/
structure SessRow where
  id : Nat
  user_id : Nat
  provider_id : Nat
  context_hash_head : String
  context_hash_tail : String
  status : String
  last_accessed_at : Int
deriving DecidableEq, Repr

/-- A provider row as seen by the SQL join: id and status string. -/
structure ProvRow where
  id : Nat
  status : String
deriving DecidableEq, Repr

/-- `JOIN providers p ON s.provider_id = p.id ... AND p.status = 'active'`:
the session row survives the join and the status condition iff some
provider row with its id is active. -/
def providerActive (providers : List ProvRow) (pid : Nat) : Bool :=
  providers.any fun p => p.id = pid ∧ p.status = "active"

/-- The WHERE clause of the exact-match query: `user_id`, both hashes,
session status `active`, provider status `active`. -/
def exactPred (providers : List ProvRow) (uid : Nat) (headHash tailHash : String)
    (s : SessRow) : Bool :=
  s.user_id = uid ∧ s.context_hash_head = headHash ∧
    s.context_hash_tail = tailHash ∧ s.status = "active" ∧
    providerActive providers s.provider_id

/-- The WHERE clause of the head-only query: as `exactPred` without the
tail hash. -/
def headPred (providers : List ProvRow) (uid : Nat) (headHash : String)
    (s : SessRow) : Bool :=
  s.user_id = uid ∧ s.context_hash_head = headHash ∧
    s.status = "active" ∧ providerActive providers s.provider_id

/-- `ORDER BY s.last_accessed_at DESC LIMIT 1` on the filtered rows: the
first row attaining the maximal `last_accessed_at`. -/
def pickLatest : List SessRow → Option SessRow
  | [] => none
  | r :: rs =>
      match pickLatest rs with
      | none => some r
      | some b => if b.last_accessed_at > r.last_accessed_at then some b else some r

/-- `Session.findMatchingSession` (session.js lines 19-61): exact query,
else head query with an UPDATE of the matched row's tail hash and
`last_accessed_at`, else no match.  Returns the match type, the matched row
as returned to the caller, and the post-state of the sessions table. -/
def findMatchingSession (sessions : List SessRow) (providers : List ProvRow)
    (uid : Nat) (headHash tailHash : String) (now : Int) :
    String × Option SessRow × List SessRow :=
  match pickLatest (sessions.filter (exactPred providers uid headHash tailHash)) with
  | some s => ("exact", some s, sessions)
  | none =>
      match pickLatest (sessions.filter (headPred providers uid headHash)) with
      | some s =>
          ("head", some s,
            sessions.map fun r =>
              if r.id = s.id then
                { r with context_hash_tail := tailHash, last_accessed_at := now }
              else r)
      | none => ("none", none, sessions)

/-- `pickLatest` on a non-empty list yields a row. -/
theorem pickLatest_cons_isSome (r : SessRow) (rs : List SessRow) :
    (pickLatest (r :: rs)).isSome := by
  simp only [pickLatest]
  cases pickLatest rs with
  | none => rfl
  | some b =>
      by_cases h : b.last_accessed_at > r.last_accessed_at <;> simp [h]

/-- `pickLatest` returns a member of the list that maximises
`last_accessed_at`. -/
theorem pickLatest_mem_max : ∀ (l : List SessRow) (s : SessRow),
    pickLatest l = some s →
    s ∈ l ∧ ∀ x ∈ l, x.last_accessed_at ≤ s.last_accessed_at
  | [], s => by simp [pickLatest]
  | r :: rs, s => by
      intro h
      simp only [pickLatest] at h
      cases hrec : pickLatest rs with
      | none =>
          rw [hrec] at h
          have h2 : some r = some s := h
          have hnil : rs = [] := by
            cases rs with
            | nil => rfl
            | cons a as =>
                have hs := pickLatest_cons_isSome a as
                rw [hrec] at hs
                simp at hs
          cases h2
          subst hnil
          simp
      | some b =>
          rw [hrec] at h
          have h2 : (if b.last_accessed_at > r.last_accessed_at then some b
              else some r) = some s := h
          obtain ⟨hmemb, hmaxb⟩ := pickLatest_mem_max rs b hrec
          by_cases hgt : b.last_accessed_at > r.last_accessed_at
          · rw [if_pos hgt] at h2
            cases h2
            refine ⟨List.mem_cons_of_mem r hmemb, fun x hx => ?_⟩
            rcases List.mem_cons.mp hx with h1 | h1
            · subst h1; omega
            · exact hmaxb x h1
          · rw [if_neg hgt] at h2
            cases h2
            refine ⟨List.mem_cons_self r rs, fun x hx => ?_⟩
            rcases List.mem_cons.mp hx with h1 | h1
            · subst h1; omega
            · have := hmaxb x h1; omega

/-- `pickLatest` yields a row iff the list is non-empty. -/
theorem pickLatest_isSome (l : List SessRow) (h : l ≠ []) :
    ∃ s, pickLatest l = some s := by
  cases l with
  | nil => simp at h
  | cons r rs =>
      have hs := pickLatest_cons_isSome r rs
      exact Option.isSome_iff_exists.mp hs

/-- **C6.** For every lookup `(uid, headHash, tailHash)` (with the current
time `now`): if a row matches user, both hashes, session status active and
provider status active, the latest-accessed such row is returned as
`exact` with no table change; otherwise if a row matches user and head hash
(same status conditions), the latest-accessed such row is returned as
`head` and that row's `context_hash_tail` is set to the incoming value and
its `last_accessed_at` to `now`; otherwise no match is returned and the
table is unchanged.  The returned row always maximises `last_accessed_at`
among the rows satisfying its filter. -/
theorem findMatchingSession_spec (sessions : List SessRow)
    (providers : List ProvRow) (uid : Nat) (headHash tailHash : String)
    (now : Int) :
    (sessions.filter (exactPred providers uid headHash tailHash) ≠ [] →
      ∃ s, findMatchingSession sessions providers uid headHash tailHash now
              = ("exact", some s, sessions) ∧
        s ∈ sessions.filter (exactPred providers uid headHash tailHash) ∧
        (∀ x ∈ sessions.filter (exactPred providers uid headHash tailHash),
          x.last_accessed_at ≤ s.last_accessed_at)) ∧
    (sessions.filter (exactPred providers uid headHash tailHash) = [] →
      sessions.filter (headPred providers uid headHash) ≠ [] →
      ∃ s, (findMatchingSession sessions providers uid headHash tailHash now).1
              = "head" ∧
        (findMatchingSession sessions providers uid headHash tailHash now).2.1
              = some s ∧
        s ∈ sessions.filter (headPred providers uid headHash) ∧
        (∀ x ∈ sessions.filter (headPred providers uid headHash),
          x.last_accessed_at ≤ s.last_accessed_at) ∧
        (findMatchingSession sessions providers uid headHash tailHash now).2.2
              = sessions.map (fun r =>
                  if r.id = s.id then
                    { r with context_hash_tail := tailHash, last_accessed_at := now }
                  else r)) ∧
    (sessions.filter (exactPred providers uid headHash tailHash) = [] →
      sessions.filter (headPred providers uid headHash) = [] →
      findMatchingSession sessions providers uid headHash tailHash now
          = ("none", none, sessions)) := by
  refine ⟨?_, ?_, ?_⟩
  · intro hne
    rcases pickLatest_isSome _ hne with ⟨s, hs⟩
    rcases pickLatest_mem_max _ s hs with ⟨hmem, hmax⟩
    exact ⟨s, by simp [findMatchingSession, hs], hmem, hmax⟩
  · intro hex hne
    have hexnone : pickLatest (sessions.filter
        (exactPred providers uid headHash tailHash)) = none := by
      rw [hex]; rfl
    rcases pickLatest_isSome _ hne with ⟨s, hs⟩
    rcases pickLatest_mem_max _ s hs with ⟨hmem, hmax⟩
    refine ⟨s, ?_, ?_, hmem, hmax, ?_⟩ <;>
      simp [findMatchingSession, hexnone, hs]
  · intro hex hhead
    have hexnone : pickLatest (sessions.filter
        (exactPred providers uid headHash tailHash)) = none := by
      rw [hex]; rfl
    have hheadnone : pickLatest (sessions.filter
        (headPred providers uid headHash)) = none := by
      rw [hhead]; rfl
    simp [findMatchingSession, hexnone, hheadnone]

/-- Witness for C6: a two-row table where only the head hash still matches —
the lookup returns `head` and rewrites that row's tail hash. -/
theorem findMatchingSession_spec_witness :
    ∃ s, (findMatchingSession
            [⟨1, 10, 3, "H", "OLD", "active", 50⟩,
             ⟨2, 10, 3, "X", "Y", "active", 60⟩]
            [⟨3, "active"⟩] 10 "H" "NEW" 100).1 = "head" ∧
      (findMatchingSession
            [⟨1, 10, 3, "H", "OLD", "active", 50⟩,
             ⟨2, 10, 3, "X", "Y", "active", 60⟩]
            [⟨3, "active"⟩] 10 "H" "NEW" 100).2.1 = some s ∧
      s ∈ List.filter (headPred [⟨3, "active"⟩] 10 "H")
            [⟨1, 10, 3, "H", "OLD", "active", 50⟩,
             ⟨2, 10, 3, "X", "Y", "active", 60⟩] ∧
      (∀ x ∈ List.filter (headPred [⟨3, "active"⟩] 10 "H")
            [⟨1, 10, 3, "H", "OLD", "active", 50⟩,
             ⟨2, 10, 3, "X", "Y", "active", 60⟩],
          x.last_accessed_at ≤ s.last_accessed_at) ∧
      (findMatchingSession
            [⟨1, 10, 3, "H", "OLD", "active", 50⟩,
             ⟨2, 10, 3, "X", "Y", "active", 60⟩]
            [⟨3, "active"⟩] 10 "H" "NEW" 100).2.2
        = List.map (fun r =>
            if r.id = s.id then
              { r with context_hash_tail := "NEW", last_accessed_at := 100 }
            else r)
            [⟨1, 10, 3, "H", "OLD", "active", 50⟩,
             ⟨2, 10, 3, "X", "Y", "active", 60⟩] :=
  ((findMatchingSession_spec
      [⟨1, 10, 3, "H", "OLD", "active", 50⟩,
       ⟨2, 10, 3, "X", "Y", "active", 60⟩]
      [⟨3, "active"⟩] 10 "H" "NEW" 100).2.1 (by decide) (by decide))

end Gateway

/- ============================================================ -/
/- Provider scheduler (src/src/core/provider-scheduler.js)       -/
/- ============================================================ -/

namespace Gateway

/-- Acquire/release/outcome/log events, in the order the code awaits them. -/
inductive Ev where
  | acq (id : Nat)
  | rel (id : Nat)
  | fail (id : Nat)
  | succ (id : Nat)
  | logRow (status : Nat)
deriving DecidableEq, Repr

/-- `current_load / max_concurrent` (exact rational, as in the SQL ORDER BY
and the weight formula). -/
def loadRatio (p : Provider) : ℚ := (p.current_load : ℚ) / (p.max_concurrent : ℚ)

/-- `ORDER BY health_score DESC, (current_load / max_concurrent) ASC`:
`a` sorts no later than `b`. -/
def orderLe (a b : Provider) : Bool :=
  a.health_score > b.health_score ∨
    (a.health_score = b.health_score ∧ loadRatio a ≤ loadRatio b)

/-- Stable insertion into a sorted list (model of the SQL sort). -/
def insertSorted (a : Provider) : List Provider → List Provider
  | [] => [a]
  | b :: bs => if orderLe a b then a :: b :: bs else b :: insertSorted a bs

/-- Stable sort by `orderLe`. -/
def sortProviders (l : List Provider) : List Provider :=
  l.foldr insertSorted []

/-- `Provider.getAvailableProviders` (crypto.js snapshot lines 103-126),
without a group filter (the executor acquires with no group): status
`active`, `health_score >= threshold`, `current_load < max_concurrent`,
ordered, `LIMIT 20`. -/
def getAvailableProviders (cfg : SchedConfig) (db : List Provider) : List Provider :=
  (sortProviders (db.filter fun p =>
      p.status = ProviderStatus.active ∧
      cfg.healthThreshold ≤ p.health_score ∧
      p.current_load < p.max_concurrent)).take 20

/-- The `excludeId` argument as `executeWithRetry` builds it:
`null`, or the JavaScript Array `Array.from(excludeIds)`. -/
inductive JsExclude where
  | null
  | arr (ids : List Nat)
deriving DecidableEq, Repr

/-- JavaScript strict inequality `p.id !== excludeId` when `excludeId` is an
Array object: a number is never strictly equal to an object, so the
comparison is `true` for every `p` — the filter keeps every candidate. -/
def jsStrictNeqNumArr (_n : Nat) (_ids : List Nat) : Bool :=
  true

/-- The body of `weightedRandom`'s subtraction loop: `random -= weights[i];
if (random <= 0) return providers[i]`, with `providers[0]` as fallback. -/
def weightedRandomGo (fallback : Option Provider) : ℚ → List Provider → Option Provider
  | _, [] => fallback
  | random, p :: rest =>
      let random2 := random - (p.health_score : ℚ) * (1 - loadRatio p)
      if random2 ≤ 0 then some p else weightedRandomGo fallback random2 rest

/-- `ProviderScheduler.weightedRandom` (provider-scheduler.js lines 84-101),
with `Math.random()` supplied as `r`. -/
def weightedRandom (r : ℚ) (providers : List Provider) : Option Provider :=
  let weights := providers.map fun p => (p.health_score : ℚ) * (1 - loadRatio p)
  let totalWeight := weights.foldl (· + ·) 0
  weightedRandomGo providers.head? (r * totalWeight) providers

/-- `ProviderScheduler.selectProvider` (provider-scheduler.js lines 53-78):
fetch the candidates, apply the exclude filter, throw (`none`) when no
candidate remains, else pick by weighted random. -/
def selectProvider (cfg : SchedConfig) (db : List Provider) (excludeId : JsExclude)
    (r : ℚ) : Option Provider :=
  let providers := getAvailableProviders cfg db
  let candidates :=
    match excludeId with
    | JsExclude.null => providers
    | JsExclude.arr ids => providers.filter fun p => jsStrictNeqNumArr p.id ids
  if candidates = [] then none else weightedRandom r candidates

/-- Result of one `executeWithRetry` run: the successful provider id (if
any), whether `selectProvider` threw `No available provider`, the
post-state of the providers table, and the event trace. -/
structure RetryOut where
  successId : Option Nat
  noProvider : Bool
  db : List Provider
  trace : List Ev
deriving Repr

/-- The attempt loop of `ProviderScheduler.executeWithRetry`
(provider-scheduler.js lines 140-190).  `op attempt id` is whether the
operation succeeds on that attempt against that provider; `rand attempt` is
the `Math.random()` draw of that attempt.  Per attempt: acquire (select +
`incrementLoad`); on success `recordSuccess` then `releaseProvider`; on
failure `recordFailure`, `releaseProvider`, and add the id to the exclude
set (`Set.add`: insertion-ordered, no duplicates). -/
def executeWithRetryGo (cfg : SchedConfig) (op : Nat → Nat → Bool)
    (rand : Nat → ℚ) (now : Int) :
    Nat → Nat → List Nat → List Provider → List Ev → RetryOut
  | 0, _, _, db, tr => ⟨none, false, db, tr⟩
  | n + 1, attempt, excl, db, tr =>
      match selectProvider cfg db
          (if excl = [] then JsExclude.null else JsExclude.arr excl)
          (rand attempt) with
      | none => ⟨none, true, db, tr⟩
      | some p =>
          let db1 := dbUpdate db p.id incrementLoad
          let tr1 := tr ++ [Ev.acq p.id]
          if op attempt p.id then
            ⟨some p.id, false,
              dbUpdate (dbUpdate db1 p.id (recordSuccess now)) p.id decrementLoad,
              tr1 ++ [Ev.succ p.id, Ev.rel p.id]⟩
          else
            executeWithRetryGo cfg op rand now n (attempt + 1)
              (if p.id ∈ excl then excl else excl ++ [p.id])
              (dbUpdate (dbUpdate db1 p.id (recordFailure cfg now)) p.id decrementLoad)
              (tr1 ++ [Ev.fail p.id, Ev.rel p.id])

/-- `ProviderScheduler.executeWithRetry`, from attempt 1 with an empty
exclude set (`maxRetries` defaults to 3). -/
def executeWithRetry (cfg : SchedConfig) (op : Nat → Nat → Bool)
    (rand : Nat → ℚ) (now : Int) (maxRetries : Nat) (db : List Provider) :
    RetryOut :=
  executeWithRetryGo cfg op rand now maxRetries 1 [] db []

end Gateway

/- ============================================================ -/
/- C1: retry is claimed never to re-acquire a failed provider    -/
/- ============================================================ -/

namespace Gateway

/-- With a single candidate, both branches of the weighted-random loop
return that candidate. -/
theorem weightedRandom_singleton (r : ℚ) (p : Provider) :
    weightedRandom r [p] = some p := by
  simp only [weightedRandom, weightedRandomGo, List.map, List.foldl, List.head?]
  split <;> rfl

/- Concrete one-provider scenario for the C1 run. -/

/-- Configuration with all defaults. -/
def c1Cfg : SchedConfig := ⟨50, 5, 300000⟩

/-- The single active provider before the run. -/
def c1P0 : Provider := ⟨1, .active, 100, 0, 10, 0, 0, 0, none, none, none⟩

/-- The same provider after one failed attempt (health 90, one consecutive
failure, load back to 0). -/
def c1P1 : Provider := ⟨1, .active, 90, 0, 10, 1, 1, 1, none, none, some 0⟩

theorem c1_avail0 : getAvailableProviders c1Cfg [c1P0] = [c1P0] := by decide

theorem c1_avail1 : getAvailableProviders c1Cfg [c1P1] = [c1P1] := by decide

theorem c1_sel0 : selectProvider c1Cfg [c1P0] JsExclude.null (1/2) = some c1P0 := by
  simp only [selectProvider, c1_avail0]
  simp [weightedRandom_singleton]

/-- Attempt 2 still selects provider 1 although its id is in the exclude
array: the `p.id !== excludeId` filter keeps every candidate. -/
theorem c1_sel1 : selectProvider c1Cfg [c1P1] (JsExclude.arr [1]) (1/2) = some c1P1 := by
  simp only [selectProvider, c1_avail1, jsStrictNeqNumArr, List.filter]
  simp [weightedRandom_singleton]

theorem c1_db : dbUpdate (dbUpdate (dbUpdate [c1P0] c1P0.id incrementLoad)
    c1P0.id (recordFailure c1Cfg 0)) c1P0.id decrementLoad = [c1P1] := by decide

/-- **C1 (refuted — code bug).**  The claim says a provider that failed an
attempt is excluded from every later attempt of the same `executeWithRetry`
run.  In the code, `executeWithRetry` passes `Array.from(excludeIds)` (a
JavaScript Array) as `excludeId`, and `selectProvider` filters with
`p.id !== excludeId`; a number is never strictly equal to an Array, so no
provider is ever excluded.  Concrete run: one active provider (id 1, health
100, load 0/10), two attempts, an operation that always fails,
`Math.random() = 1/2`.  Under the claim, attempt 2 must draw from the empty
remainder and fail with `No available provider`; instead the run acquires
provider 1 a second time after its recorded failure. -/
theorem executeWithRetry_reacquires_failed_provider :
    (executeWithRetry c1Cfg (fun _ _ => false) (fun _ => 1/2) 0 2 [c1P0]).trace
      = [Ev.acq 1, Ev.fail 1, Ev.rel 1, Ev.acq 1, Ev.fail 1, Ev.rel 1] ∧
    (executeWithRetry c1Cfg (fun _ _ => false) (fun _ => 1/2) 0 2 [c1P0]).trace.count
      (Ev.acq 1) = 2 := by
  have h : (executeWithRetry c1Cfg (fun _ _ => false) (fun _ => 1/2) 0 2 [c1P0]).trace
      = [Ev.acq 1, Ev.fail 1, Ev.rel 1, Ev.acq 1, Ev.fail 1, Ev.rel 1] := by
    unfold executeWithRetry
    rw [executeWithRetryGo,
        show (if ([] : List Nat) = [] then JsExclude.null else JsExclude.arr [])
            = JsExclude.null from rfl,
        c1_sel0]
    show (executeWithRetryGo c1Cfg (fun _ _ => false) (fun _ => 1/2) 0 1 2 [1] [c1P1]
        [Ev.acq 1, Ev.fail 1, Ev.rel 1]).trace = _
    rw [executeWithRetryGo,
        show (if ([1] : List Nat) = [] then JsExclude.null else JsExclude.arr [1])
            = JsExclude.arr [1] from rfl,
        c1_sel1]
    rfl
  exact ⟨h, by rw [h]; rfl⟩

end Gateway

/- ============================================================ -/
/- Request executor control flow                                 -/
/-   (src/src/core/request-executor.js lines 49-157, 162-309)    -/
/- ============================================================ -/

namespace Gateway

/-- Outcomes of the awaited steps of one executor call.  Each flag says
whether the corresponding awaited operation resolves (`true`) or rejects
(`false`): `acquireOk` is `providerScheduler.acquireProvider()`, `matchOk`
is `sessionMatcher.matchOrCreate`, `needCreate`/`createOk` the optional
`client.createSession()`, `sendOk` is `client.sendMessage` (or
`sendMessageStream`), `recordMessageOk` is `sessionMatcher.recordMessage`,
`recordSuccessOk` is `providerScheduler.recordSuccess`, and `logOk` is the
success-path `RequestLog.log`.  `releaseProvider`, the catch-path
bookkeeping and the catch-path log row are taken as resolving. -/
structure GenEnv where
  acquireOk : Bool
  matchOk : Bool
  needCreate : Bool
  createOk : Bool
  sendOk : Bool
  recordMessageOk : Bool
  recordSuccessOk : Bool
  logOk : Bool
deriving DecidableEq, Repr

/-- The `catch` block of `generateContent` when a provider was acquired
(lines 133-156): `releaseProvider`, `recordFailure`, error log row with
`statusCode: 500`, rethrow. -/
def genCatchTrace (pid : Nat) : Bool × List Ev :=
  (false, [Ev.acq pid, Ev.rel pid, Ev.fail pid, Ev.logRow 500])

/-- `RequestExecutor.generateContent` (request-executor.js lines 49-157) as
the sequence of acquire/release/outcome/log events it awaits, for a call
whose acquired provider has id `pid`.  `hasContents` is whether the request
body carries a `contents` value: there is no validation — the executor
acquires first, and with `contents` undefined `matchOrCreate` throws a
`TypeError` reading `messages.length`.  On the success path the order is
`recordMessage`, `releaseProvider`, `recordSuccess`, success log row
(status 200); any rejection after the release re-enters the catch block and
releases a second time. -/
def generateContentTrace (pid : Nat) (hasContents : Bool) (env : GenEnv) :
    Bool × List Ev :=
  if env.acquireOk then
    if hasContents && env.matchOk then
      if env.needCreate && !env.createOk then genCatchTrace pid
      else if env.sendOk then
        if env.recordMessageOk then
          if env.recordSuccessOk then
            if env.logOk then
              (true, [Ev.acq pid, Ev.rel pid, Ev.succ pid, Ev.logRow 200])
            else
              (false, [Ev.acq pid, Ev.rel pid, Ev.succ pid,
                       Ev.rel pid, Ev.fail pid, Ev.logRow 500])
          else
            (false, [Ev.acq pid, Ev.rel pid,
                     Ev.rel pid, Ev.fail pid, Ev.logRow 500])
        else genCatchTrace pid
      else genCatchTrace pid
    else genCatchTrace pid
  else (false, [Ev.logRow 500])

/-- `RequestExecutor.streamGenerateContent` (request-executor.js lines
162-309): the awaited step sequence is the same as the unary one —
acquire, match, optional create, stream send, then `recordMessage`,
`releaseProvider`, `recordSuccess`, success log row; the catch block
releases again, records a failure and logs status 500.  (`_fetchImage`
catches internally and never rejects.) -/
def streamGenerateContentTrace (pid : Nat) (hasContents : Bool) (env : GenEnv) :
    Bool × List Ev :=
  if env.acquireOk then
    if hasContents && env.matchOk then
      if env.needCreate && !env.createOk then genCatchTrace pid
      else if env.sendOk then
        if env.recordMessageOk then
          if env.recordSuccessOk then
            if env.logOk then
              (true, [Ev.acq pid, Ev.rel pid, Ev.succ pid, Ev.logRow 200])
            else
              (false, [Ev.acq pid, Ev.rel pid, Ev.succ pid,
                       Ev.rel pid, Ev.fail pid, Ev.logRow 500])
          else
            (false, [Ev.acq pid, Ev.rel pid,
                     Ev.rel pid, Ev.fail pid, Ev.logRow 500])
        else genCatchTrace pid
      else genCatchTrace pid
    else genCatchTrace pid
  else (false, [Ev.logRow 500])

end Gateway

/- ============================================================ -/
/- C2: acquire/release balance                                   -/
/- ============================================================ -/

namespace Gateway

/-- Inside `executeWithRetry`, every attempt's acquire is matched by exactly
one release: the event trace grows by balanced acquire/release pairs. -/
theorem executeWithRetryGo_balance (cfg : SchedConfig) (op : Nat → Nat → Bool)
    (rand : Nat → ℚ) (now : Int) (id : Nat) :
    ∀ (n attempt : Nat) (excl : List Nat) (db : List Provider) (tr : List Ev),
    (executeWithRetryGo cfg op rand now n attempt excl db tr).trace.count (Ev.acq id)
      + tr.count (Ev.rel id)
    = (executeWithRetryGo cfg op rand now n attempt excl db tr).trace.count (Ev.rel id)
      + tr.count (Ev.acq id) := by
  intro n
  induction n with
  | zero =>
      intro attempt excl db tr
      simp [executeWithRetryGo]
      omega
  | succ n ih =>
      intro attempt excl db tr
      simp only [executeWithRetryGo]
      cases hsel : selectProvider cfg db
          (if excl = [] then JsExclude.null else JsExclude.arr excl)
          (rand attempt) with
      | none => simp; omega
      | some p =>
          simp only []
          by_cases hop : op attempt p.id
          · simp only [hop, if_true]
            by_cases hp : p.id = id <;>
              simp [List.count_append, List.count_cons, hp] <;> omega
          · simp only [hop, if_false, Bool.false_eq_true]
            have h := ih (attempt + 1)
              (if p.id ∈ excl then excl else excl ++ [p.id])
              (dbUpdate (dbUpdate (dbUpdate db p.id incrementLoad) p.id
                (recordFailure cfg now)) p.id decrementLoad)
              (tr ++ [Ev.acq p.id] ++ [Ev.fail p.id, Ev.rel p.id])
            by_cases hp : p.id = id <;>
              simp [List.count_append, List.count_cons, hp] at h ⊢ <;> omega

/-- **C2 (refuted — corrected).**  Counterexample to "exactly one release on
every path": in `generateContent`, the success path releases the provider
(line 113) *before* `recordSuccess` (line 114) and the success log row
(line 118); if either of those rejects, control enters the catch block,
which releases the same provider a second time.  Closed run: a call whose
`recordSuccess` rejects releases twice for one acquire. -/
theorem generateContent_double_release :
    (generateContentTrace 1 true ⟨true, true, false, true, true, true, false, true⟩).2
      = [Ev.acq 1, Ev.rel 1, Ev.rel 1, Ev.fail 1, Ev.logRow 500] ∧
    (generateContentTrace 1 true
        ⟨true, true, false, true, true, true, false, true⟩).2.count (Ev.rel 1) = 2 ∧
    (generateContentTrace 1 true
        ⟨true, true, false, true, true, true, false, true⟩).2.count (Ev.acq 1) = 1 := by
  refine ⟨rfl, rfl, rfl⟩

/-- **C2 (amended).**  Each acquisition is followed by exactly one release
on every path — both on success and on every failure path — *provided the
post-release bookkeeping (`recordSuccess` and the success log row) resolves*;
when one of those rejects after the release, the catch block releases the
same provider a second time (see the counterexample).  This holds for the
unary executor call, the streaming executor call, and every attempt inside
`executeWithRetry`. -/
theorem acquire_release_balanced :
    (∀ (pid : Nat) (hc : Bool) (env : GenEnv),
      env.recordSuccessOk = true → env.logOk = true →
      (generateContentTrace pid hc env).2.count (Ev.rel pid)
        = (generateContentTrace pid hc env).2.count (Ev.acq pid)) ∧
    (∀ (pid : Nat) (hc : Bool) (env : GenEnv),
      env.recordSuccessOk = true → env.logOk = true →
      (streamGenerateContentTrace pid hc env).2.count (Ev.rel pid)
        = (streamGenerateContentTrace pid hc env).2.count (Ev.acq pid)) ∧
    (∀ (cfg : SchedConfig) (op : Nat → Nat → Bool) (rand : Nat → ℚ) (now : Int)
        (maxRetries : Nat) (db : List Provider) (id : Nat),
      (executeWithRetry cfg op rand now maxRetries db).trace.count (Ev.rel id)
        = (executeWithRetry cfg op rand now maxRetries db).trace.count (Ev.acq id)) := by
  refine ⟨?_, ?_, ?_⟩
  · rintro pid hc ⟨a, m, nc, c, s, rm, rs, lg⟩ h1 h2
    cases h1; cases h2
    cases a <;> cases hc <;> cases m <;> cases nc <;> cases c <;> cases s <;>
      cases rm <;>
      simp [generateContentTrace, genCatchTrace, List.count_cons, List.count_nil]
  · rintro pid hc ⟨a, m, nc, c, s, rm, rs, lg⟩ h1 h2
    cases h1; cases h2
    cases a <;> cases hc <;> cases m <;> cases nc <;> cases c <;> cases s <;>
      cases rm <;>
      simp [streamGenerateContentTrace, genCatchTrace, List.count_cons, List.count_nil]
  · intro cfg op rand now maxRetries db id
    have h := executeWithRetryGo_balance cfg op rand now id maxRetries 1 [] db []
    simpa [executeWithRetry] using h.symm

/-- Witness for the amended C2: a fully successful unary call has one
acquire and one release. -/
theorem acquire_release_balanced_witness :
    (generateContentTrace 1 true
        ⟨true, true, true, true, true, true, true, true⟩).2.count (Ev.rel 1)
      = (generateContentTrace 1 true
        ⟨true, true, true, true, true, true, true, true⟩).2.count (Ev.acq 1) :=
  acquire_release_balanced.1 1 true
    ⟨true, true, true, true, true, true, true, true⟩ rfl rfl

end Gateway

/- ============================================================ -/
/- C3: missing `contents` is claimed to 400 without acquisition  -/
/- ============================================================ -/

namespace Gateway

/-- **C3 (refuted — corrected).**  Counterexample: neither the route handler
(`handleGenerateContent`, which destructures `request.body` and passes
`contents` through unvalidated) nor the executor checks `contents`; the
executor acquires a provider *first*.  A request with no `contents` and an
otherwise healthy environment acquires provider 1, then fails inside
`matchOrCreate` (TypeError on `messages.length`), releases, records a
*provider* failure, and logs status 500 — it never produces a 400 row. -/
theorem missing_contents_acquires_provider :
    generateContentTrace 1 false ⟨true, true, true, true, true, true, true, true⟩
      = (false, [Ev.acq 1, Ev.rel 1, Ev.fail 1, Ev.logRow 500]) ∧
    (generateContentTrace 1 false
        ⟨true, true, true, true, true, true, true, true⟩).2.count (Ev.acq 1) = 1 ∧
    Ev.logRow 400 ∉ (generateContentTrace 1 false
        ⟨true, true, true, true, true, true, true, true⟩).2 ∧
    Ev.logRow 500 ∈ (generateContentTrace 1 false
        ⟨true, true, true, true, true, true, true, true⟩).2 := by
  refine ⟨rfl, rfl, by decide, by decide⟩

/-- **C3 (amended).**  A request with missing (or malformed) `contents` is
not rejected before acquisition: whenever the scheduler can supply a
provider, the executor acquires it, the failure surfaces only afterwards —
the provider is released and charged a failure — and the request-log row
records status 500; no 400 row and no rejection-without-acquisition occur
in the core pipeline. -/
theorem missing_contents_not_rejected_before_acquire (pid : Nat) (env : GenEnv)
    (h : env.acquireOk = true) :
    generateContentTrace pid false env
      = (false, [Ev.acq pid, Ev.rel pid, Ev.fail pid, Ev.logRow 500]) := by
  simp [generateContentTrace, h, genCatchTrace]

/-- Witness for the amended C3. -/
theorem missing_contents_not_rejected_before_acquire_witness :
    generateContentTrace 9 false ⟨true, false, false, false, false, false, false, false⟩
      = (false, [Ev.acq 9, Ev.rel 9, Ev.fail 9, Ev.logRow 500]) :=
  missing_contents_not_rejected_before_acquire 9
    ⟨true, false, false, false, false, false, false, false⟩ rfl

end Gateway

/- ============================================================ -/
/- Incremental stream parser                                     -/
/-   (src/src/core/gemini-client.js, curlStreamRequest 293-444)  -/
/- ============================================================ -/

namespace Gateway

/-- The parser state held across `data` events in `curlStreamRequest`:
`inArray`, `braceDepth` (an `Int`: the JavaScript counter may go negative on
malformed input), `inString`, `escapeNext`, the bytes of `currentObject`,
and the raw object strings completed so far (each is `JSON.parse`d and
pushed as it completes).  `done` models the `break` on the top-level `]`:
with input that ends at the `]`, no further byte is processed. -/
structure PState where
  inArray : Bool
  braceDepth : Int
  inString : Bool
  escapeNext : Bool
  current : List Char
  emitted : List (List Char)
  done : Bool
deriving DecidableEq, Repr

/-- One character of the `while (buffer.length > 0)` loop body
(gemini-client.js lines 328-410), with the branches in source order. -/
def pstep (s : PState) (c : Char) : PState :=
  if s.done = true then s
  else if s.escapeNext = true then
    { s with escapeNext := false,
             current := if 0 < s.braceDepth then s.current ++ [c] else s.current }
  else if c = '\\' ∧ s.inString = true then
    { s with escapeNext := true,
             current := if 0 < s.braceDepth then s.current ++ [c] else s.current }
  else if c = '"' ∧ 0 < s.braceDepth then
    { s with inString := !s.inString, current := s.current ++ [c] }
  else if s.inString = true then
    { s with current := s.current ++ [c] }
  else if c = '[' ∧ s.inArray = false ∧ s.braceDepth = 0 then
    { s with inArray := true }
  else if c = ']' ∧ s.inArray = true ∧ s.braceDepth = 0 then
    { s with done := true }
  else if s.braceDepth = 0 ∧ (c = ',' ∨ c = '\r' ∨ c = '\n' ∨ c = ' ') then
    s
  else if c = '{' then
    { s with braceDepth := s.braceDepth + 1, current := s.current ++ [c] }
  else if c = '}' then
    if s.braceDepth - 1 = 0 ∧ (s.current ++ [c]).length > 0 then
      { s with braceDepth := s.braceDepth - 1, current := [],
               emitted := s.emitted ++ [s.current ++ [c]] }
    else
      { s with braceDepth := s.braceDepth - 1, current := s.current ++ [c] }
  else if 0 < s.braceDepth then
    { s with current := s.current ++ [c] }
  else s

/-- Feed a sequence of characters (one `data` event, or several). -/
def feed (s : PState) (cs : List Char) : PState := cs.foldl pstep s

/-- The state at the start of `curlStreamRequest`. -/
def initState : PState := ⟨false, 0, false, false, [], [], false⟩

/-- Process a chunked byte stream: each chunk is appended to the buffer and
the loop consumes it entirely (state persists across events). -/
def processChunks (chunks : List (List Char)) : PState :=
  chunks.foldl feed initState

/-- Chunk boundaries are invisible: processing the chunks one by one equals
processing their concatenation. -/
theorem feed_append (s : PState) (a b : List Char) :
    feed s (a ++ b) = feed (feed s a) b :=
  List.foldl_append pstep s a b

/-- `processChunks` only depends on the concatenation of the chunks. -/
theorem processChunks_eq_feed_join (chunks : List (List Char)) :
    processChunks chunks = feed initState chunks.flatten := by
  suffices h : ∀ (s : PState) (cs : List (List Char)),
      cs.foldl feed s = feed s cs.flatten by
    exact h initState chunks
  intro s cs
  induction cs generalizing s with
  | nil => rfl
  | cons c cs ih => simp [List.foldl_cons, List.flatten, ih, feed_append]

end Gateway

namespace Gateway

/-- JSON values (numbers restricted to naturals; sufficient for the claim's
"every finite sequence of valid JSON objects" up to the number grammar,
which the parser treats like any other non-special characters).  Strings
are character lists, matching the byte-level parser model. -/
inductive JVal where
  | jnull : JVal
  | jbool : Bool → JVal
  | jnum : Nat → JVal
  | jstr : List Char → JVal
  | jarr : List JVal → JVal
  | jobj : List (List Char × JVal) → JVal
deriving Repr

/-- JSON string-body escaping: `"` and `\` get a backslash; all other
characters are emitted verbatim. -/
def escapeString : List Char → List Char
  | [] => []
  | c :: cs =>
      if c = '"' ∨ c = '\\' then '\\' :: c :: escapeString cs
      else c :: escapeString cs

/-- A JSON string literal. -/
def renderString (s : List Char) : List Char :=
  '"' :: (escapeString s ++ ['"'])

/-- Decimal digit characters. -/
def digitChar : Nat → Char
  | 0 => '0' | 1 => '1' | 2 => '2' | 3 => '3' | 4 => '4'
  | 5 => '5' | 6 => '6' | 7 => '7' | 8 => '8' | _ => '9'

/-- Decimal rendering of a natural (with fuel; `natDigits` supplies enough). -/
def natDigitsGo : Nat → Nat → List Char
  | 0, _ => []
  | fuel + 1, n =>
      if n < 10 then [digitChar n]
      else natDigitsGo fuel (n / 10) ++ [digitChar (n % 10)]

/-- Decimal rendering of a natural. -/
def natDigits (n : Nat) : List Char := natDigitsGo (n + 1) n

mutual

/-- Compact serialisation of a JSON value. -/
def JVal.render : JVal → List Char
  | .jnull => ['n', 'u', 'l', 'l']
  | .jbool true => ['t', 'r', 'u', 'e']
  | .jbool false => ['f', 'a', 'l', 's', 'e']
  | .jnum n => natDigits n
  | .jstr s => renderString s
  | .jarr es => '[' :: (JVal.renderItems es ++ [']'])
  | .jobj fs => '{' :: (JVal.renderMembers fs ++ ['}'])

/-- Comma-separated array elements. -/
def JVal.renderItems : List JVal → List Char
  | [] => []
  | [e] => JVal.render e
  | e :: es => JVal.render e ++ ',' :: JVal.renderItems es

/-- Comma-separated `"key":value` members. -/
def JVal.renderMembers : List (List Char × JVal) → List Char
  | [] => []
  | [(k, v)] => renderString k ++ ':' :: JVal.render v
  | (k, v) :: fs => renderString k ++ ':' :: JVal.render v ++ ',' :: JVal.renderMembers fs

end

mutual

/-- Validity of a JSON value: string literals (and keys) contain no control
characters, so the serialisation is standard-valid JSON and `JSON.parse`
accepts it. -/
def JVal.wf : JVal → Prop
  | .jnull => True
  | .jbool _ => True
  | .jnum _ => True
  | .jstr s => ∀ c ∈ s, 32 ≤ c.toNat
  | .jarr es => JVal.wfItems es
  | .jobj fs => JVal.wfMembers fs

def JVal.wfItems : List JVal → Prop
  | [] => True
  | e :: es => JVal.wf e ∧ JVal.wfItems es

def JVal.wfMembers : List (List Char × JVal) → Prop
  | [] => True
  | (k, v) :: fs => (∀ c ∈ k, 32 ≤ c.toNat) ∧ JVal.wf v ∧ JVal.wfMembers fs

end

end Gateway

namespace Gateway

/-- A character with no role outside strings: accumulated verbatim inside an
object. -/
theorem pstep_plain (s : PState) (c : Char) (hdn : s.done = false)
    (he : s.escapeNext = false) (hs : s.inString = false)
    (hd : 0 < s.braceDepth) (hc2 : c ≠ '"')
    (hc3 : c ≠ '{') (hc4 : c ≠ '}') :
    pstep s c = { s with current := s.current ++ [c] } := by
  unfold pstep
  rw [if_neg (by simp [hdn]), if_neg (by simp [he]), if_neg (by simp [hs]),
      if_neg (by simp [hc2]), if_neg (by simp [hs]),
      if_neg (by rintro ⟨-, -, h0⟩; omega),
      if_neg (by rintro ⟨-, -, h0⟩; omega),
      if_neg (by rintro ⟨h0, -⟩; omega),
      if_neg (by simp [hc3]), if_neg (by simp [hc4]), if_pos hd]

/-- Inside a string, a character other than `"` and `\` is accumulated. -/
theorem pstep_instring (s : PState) (c : Char) (hdn : s.done = false)
    (he : s.escapeNext = false) (hs : s.inString = true)
    (hc1 : c ≠ '\\') (hc2 : c ≠ '"') :
    pstep s c = { s with current := s.current ++ [c] } := by
  unfold pstep
  rw [if_neg (by simp [hdn]), if_neg (by simp [he]), if_neg (by simp [hc1]),
      if_neg (by simp [hc2]), if_pos hs]

/-- Inside a string at positive depth, a backslash sets `escapeNext` and is
accumulated. -/
theorem pstep_backslash (s : PState) (hdn : s.done = false)
    (he : s.escapeNext = false) (hs : s.inString = true)
    (hd : 0 < s.braceDepth) :
    pstep s '\\' = { s with escapeNext := true, current := s.current ++ ['\\'] } := by
  unfold pstep
  rw [if_neg (by simp [hdn]), if_neg (by simp [he]), if_pos ⟨rfl, hs⟩,
      if_pos hd]

/-- With `escapeNext` set at positive depth, any character is accumulated
and the flag cleared. -/
theorem pstep_escaped (s : PState) (c : Char) (hdn : s.done = false)
    (he : s.escapeNext = true) (hd : 0 < s.braceDepth) :
    pstep s c = { s with escapeNext := false, current := s.current ++ [c] } := by
  unfold pstep
  rw [if_neg (by simp [hdn]), if_pos he, if_pos hd]

/-- A quote at positive depth toggles string mode and is accumulated. -/
theorem pstep_quote (s : PState) (hdn : s.done = false)
    (he : s.escapeNext = false) (hd : 0 < s.braceDepth) :
    pstep s '"' = { s with inString := !s.inString, current := s.current ++ ['"'] } := by
  unfold pstep
  rw [if_neg (by simp [hdn]), if_neg (by simp [he]),
      if_neg (by rintro ⟨h, -⟩; exact absurd h (by decide)), if_pos ⟨rfl, hd⟩]

/-- `{` outside a string opens a nesting level and is accumulated. -/
theorem pstep_open (s : PState) (hdn : s.done = false)
    (he : s.escapeNext = false) (hs : s.inString = false) :
    pstep s '{' = { s with braceDepth := s.braceDepth + 1,
                           current := s.current ++ ['{'] } := by
  unfold pstep
  rw [if_neg (by simp [hdn]), if_neg (by simp [he]), if_neg (by simp [hs]),
      if_neg (by rintro ⟨h, -⟩; exact absurd h (by decide)),
      if_neg (by simp [hs]),
      if_neg (by rintro ⟨h, -⟩; exact absurd h (by decide)),
      if_neg (by rintro ⟨h, -⟩; exact absurd h (by decide)),
      if_neg (by rintro ⟨-, h⟩; rcases h with h | h | h | h <;>
        exact absurd h (by decide)),
      if_pos rfl]

/-- `}` outside a string at depth ≥ 2 closes one level and is accumulated
without emitting. -/
theorem pstep_close_inner (s : PState) (hdn : s.done = false)
    (he : s.escapeNext = false) (hs : s.inString = false)
    (hd : 2 ≤ s.braceDepth) :
    pstep s '}' = { s with braceDepth := s.braceDepth - 1,
                           current := s.current ++ ['}'] } := by
  unfold pstep
  rw [if_neg (by simp [hdn]), if_neg (by simp [he]), if_neg (by simp [hs]),
      if_neg (by rintro ⟨h, -⟩; exact absurd h (by decide)),
      if_neg (by simp [hs]),
      if_neg (by rintro ⟨h, -⟩; exact absurd h (by decide)),
      if_neg (by rintro ⟨h, -⟩; exact absurd h (by decide)),
      if_neg (by rintro ⟨h0, -⟩; omega),
      if_neg (by intro h; exact absurd h (by decide)),
      if_pos rfl, if_neg (by rintro ⟨h0, -⟩; omega)]

/-- `}` outside a string at depth 1 completes the object: the buffered
bytes are emitted and the buffer cleared. -/
theorem pstep_close_emit (s : PState) (hdn : s.done = false)
    (he : s.escapeNext = false) (hs : s.inString = false)
    (hd : s.braceDepth = 1) :
    pstep s '}' = { s with braceDepth := 0, current := [],
                           emitted := s.emitted ++ [s.current ++ ['}']] } := by
  unfold pstep
  rw [if_neg (by simp [hdn]), if_neg (by simp [he]), if_neg (by simp [hs]),
      if_neg (by rintro ⟨h, -⟩; exact absurd h (by decide)),
      if_neg (by simp [hs]),
      if_neg (by rintro ⟨h, -⟩; exact absurd h (by decide)),
      if_neg (by rintro ⟨h, -⟩; exact absurd h (by decide)),
      if_neg (by rintro ⟨h0, -⟩; omega),
      if_neg (by intro h; exact absurd h (by decide)),
      if_pos rfl, if_pos ⟨by omega, by simp⟩]
  simp [hd]

/-- A separator (`, \r \n space`) at depth 0 outside a string is skipped. -/
theorem pstep_sep (s : PState) (c : Char) (hdn : s.done = false)
    (he : s.escapeNext = false) (hs : s.inString = false)
    (hd : s.braceDepth = 0)
    (hc : c = ',' ∨ c = '\r' ∨ c = '\n' ∨ c = ' ') :
    pstep s c = s := by
  have hlb : c ≠ '[' := by rcases hc with h | h | h | h <;> subst h <;> decide
  have hrb : c ≠ ']' := by rcases hc with h | h | h | h <;> subst h <;> decide
  have hq : c ≠ '"' := by rcases hc with h | h | h | h <;> subst h <;> decide
  unfold pstep
  rw [if_neg (by simp [hdn]), if_neg (by simp [he]), if_neg (by simp [hs]),
      if_neg (by simp [hq]), if_neg (by simp [hs]),
      if_neg (by rintro ⟨h, -⟩; exact hlb h),
      if_neg (by rintro ⟨h, -⟩; exact hrb h),
      if_pos ⟨hd, hc⟩]

/-- The top-level `[` is consumed and sets `inArray`. -/
theorem pstep_openArray (s : PState) (hdn : s.done = false)
    (he : s.escapeNext = false) (hs : s.inString = false)
    (ha : s.inArray = false) (hd : s.braceDepth = 0) :
    pstep s '[' = { s with inArray := true } := by
  unfold pstep
  rw [if_neg (by simp [hdn]), if_neg (by simp [he]), if_neg (by simp [hs]),
      if_neg (by rintro ⟨h, -⟩; exact absurd h (by decide)),
      if_neg (by simp [hs]), if_pos ⟨rfl, ha, hd⟩]

/-- The top-level `]` terminates processing (the `break`). -/
theorem pstep_closeArray (s : PState) (hdn : s.done = false)
    (he : s.escapeNext = false) (hs : s.inString = false)
    (ha : s.inArray = true) (hd : s.braceDepth = 0) :
    pstep s ']' = { s with done := true } := by
  unfold pstep
  rw [if_neg (by simp [hdn]), if_neg (by simp [he]), if_neg (by simp [hs]),
      if_neg (by rintro ⟨h, -⟩; exact absurd h (by decide)),
      if_neg (by simp [hs]),
      if_neg (by rintro ⟨h, -⟩; exact absurd h (by decide)),
      if_pos ⟨rfl, ha, hd⟩]

end Gateway

namespace Gateway

/-- Characters that take the final accumulate branch inside an object. -/
abbrev PlainChar (c : Char) : Prop := c ≠ '"' ∧ c ≠ '{' ∧ c ≠ '}' ∧ c ≠ '\\'

theorem feed_plain (cs : List Char) : ∀ (s : PState), s.done = false →
    s.escapeNext = false → s.inString = false → 0 < s.braceDepth →
    (∀ c ∈ cs, PlainChar c) →
    feed s cs = { s with current := s.current ++ cs } := by
  induction cs with
  | nil => intro s _ _ _ _ _; show s = _; simp
  | cons c cs ih =>
      intro s h1 h2 h3 h4 h5
      obtain ⟨hq, ho, hc, hb⟩ := h5 c (List.mem_cons_self c cs)
      show feed (pstep s c) cs = _
      rw [pstep_plain s c h1 h2 h3 h4 hq ho hc,
          ih { s with current := s.current ++ [c] } h1 h2 h3 h4
            (fun x hx => h5 x (List.mem_cons_of_mem c hx))]
      simp

theorem escapeString_cons (c : Char) (cs : List Char) :
    escapeString (c :: cs)
      = if c = '"' ∨ c = '\\' then '\\' :: c :: escapeString cs
        else c :: escapeString cs := rfl

theorem feed_escapeString (cs : List Char) : ∀ (s : PState), s.done = false →
    s.escapeNext = false → s.inString = true → 0 < s.braceDepth →
    feed s (escapeString cs) = { s with current := s.current ++ escapeString cs } := by
  induction cs with
  | nil =>
      intro s _ _ _ _
      show s = _
      rw [show escapeString [] = [] from rfl]
      simp
  | cons c cs ih =>
      intro s h1 h2 h3 h4
      by_cases hc : c = '"' ∨ c = '\\'
      · rw [show escapeString (c :: cs) = '\\' :: c :: escapeString cs from by
              rw [escapeString_cons, if_pos hc]]
        show feed (pstep (pstep s '\\') c) (escapeString cs) = _
        rw [pstep_backslash s h1 h2 h3 h4]
        rw [pstep_escaped
          { s with escapeNext := true, current := s.current ++ ['\\'] }
          c h1 rfl h4]
        rw [ih
          { s with escapeNext := false, current := s.current ++ ['\\'] ++ [c] }
          h1 rfl h3 h4]
        simp [h2]
      · rw [show escapeString (c :: cs) = c :: escapeString cs from by
              rw [escapeString_cons, if_neg hc]]
        push_neg at hc
        show feed (pstep s c) (escapeString cs) = _
        rw [pstep_instring s c h1 h2 h3 hc.2 hc.1]
        rw [ih { s with current := s.current ++ [c] } h1 h2 h3 h4]
        simp

theorem feed_renderString (str : List Char) (s : PState) (h1 : s.done = false)
    (h2 : s.escapeNext = false) (h3 : s.inString = false)
    (h4 : 0 < s.braceDepth) :
    feed s (renderString str) = { s with current := s.current ++ renderString str } := by
  show feed (pstep s '"') (escapeString str ++ ['"']) = _
  rw [pstep_quote s h1 h2 h4, feed_append]
  rw [feed_escapeString str
      { s with inString := !s.inString, current := s.current ++ ['"'] }
      h1 h2 (by simp [h3]) h4]
  show pstep
      { s with inString := !s.inString, current := s.current ++ ['"'] ++ escapeString str }
      '"' = _
  rw [pstep_quote
      { s with inString := !s.inString, current := s.current ++ ['"'] ++ escapeString str }
      h1 h2 h4]
  simp [h3, renderString]

end Gateway

namespace Gateway

theorem digitChar_plain (k : Nat) : PlainChar (digitChar k) := by
  unfold digitChar
  split <;> decide

theorem natDigitsGo_plain : ∀ (fuel n : Nat), ∀ c ∈ natDigitsGo fuel n, PlainChar c := by
  intro fuel
  induction fuel with
  | zero => intro n c hc; simp [natDigitsGo] at hc
  | succ fuel ih =>
      intro n c hc
      unfold natDigitsGo at hc
      by_cases h : n < 10
      · rw [if_pos h] at hc
        simp at hc
        exact hc ▸ digitChar_plain n
      · rw [if_neg h] at hc
        rcases List.mem_append.mp hc with h1 | h1
        · exact ih (n / 10) c h1
        · simp at h1
          exact h1 ▸ digitChar_plain (n % 10)

theorem natDigits_plain (n : Nat) : ∀ c ∈ natDigits n, PlainChar c :=
  natDigitsGo_plain (n + 1) n

mutual

/-- Feeding the serialisation of any JSON value while inside an object
(depth ≥ 1, outside any string) accumulates exactly those bytes and changes
nothing else: no emission, no depth change, no string state. -/
theorem feed_render : ∀ (j : JVal) (s : PState), s.done = false →
    s.escapeNext = false → s.inString = false → 0 < s.braceDepth →
    feed s (JVal.render j) = { s with current := s.current ++ JVal.render j }
  | .jnull, s, h1, h2, h3, h4 =>
      feed_plain _ s h1 h2 h3 h4 (by decide)
  | .jbool true, s, h1, h2, h3, h4 =>
      feed_plain _ s h1 h2 h3 h4 (by decide)
  | .jbool false, s, h1, h2, h3, h4 =>
      feed_plain _ s h1 h2 h3 h4 (by decide)
  | .jnum n, s, h1, h2, h3, h4 =>
      feed_plain _ s h1 h2 h3 h4 (natDigits_plain n)
  | .jstr st, s, h1, h2, h3, h4 =>
      feed_renderString st s h1 h2 h3 h4
  | .jarr es, s, h1, h2, h3, h4 => by
      show feed s ('[' :: (JVal.renderItems es ++ [']'])) = _
      rw [show feed s ('[' :: (JVal.renderItems es ++ [']']))
            = feed (pstep s '[') (JVal.renderItems es ++ [']']) from rfl]
      rw [pstep_plain s '[' h1 h2 h3 h4 (by decide) (by decide) (by decide)]
      rw [feed_append]
      rw [feed_renderElems es { s with current := s.current ++ ['['] } h1 h2 h3 h4]
      rw [show feed
            { s with current := s.current ++ ['['] ++ JVal.renderItems es } [']']
          = pstep
            { s with current := s.current ++ ['['] ++ JVal.renderItems es } ']'
          from rfl]
      rw [pstep_plain
            { s with current := s.current ++ ['['] ++ JVal.renderItems es }
            ']' h1 h2 h3 h4 (by decide) (by decide) (by decide)]
      simp [JVal.render]
  | .jobj fs, s, h1, h2, h3, h4 => by
      show feed s ('{' :: (JVal.renderMembers fs ++ ['}'])) = _
      rw [show feed s ('{' :: (JVal.renderMembers fs ++ ['}']))
            = feed (pstep s '{') (JVal.renderMembers fs ++ ['}']) from rfl]
      rw [pstep_open s h1 h2 h3]
      rw [feed_append]
      rw [feed_renderFields fs
            { s with braceDepth := s.braceDepth + 1, current := s.current ++ ['{'] }
            h1 h2 h3 (by simp; omega)]
      rw [show feed
            { s with braceDepth := s.braceDepth + 1,
                     current := s.current ++ ['{'] ++ JVal.renderMembers fs } ['}']
          = pstep
            { s with braceDepth := s.braceDepth + 1,
                     current := s.current ++ ['{'] ++ JVal.renderMembers fs } '}'
          from rfl]
      rw [pstep_close_inner
            { s with braceDepth := s.braceDepth + 1,
                     current := s.current ++ ['{'] ++ JVal.renderMembers fs }
            h1 h2 h3 (by simp; omega)]
      simp [JVal.render]

/-- Feeding comma-separated serialised array elements inside an object. -/
theorem feed_renderElems : ∀ (es : List JVal) (s : PState), s.done = false →
    s.escapeNext = false → s.inString = false → 0 < s.braceDepth →
    feed s (JVal.renderItems es) = { s with current := s.current ++ JVal.renderItems es }
  | [], s, h1, h2, h3, h4 => by
      show s = _
      rw [show JVal.renderItems [] = [] from rfl]
      simp
  | [e], s, h1, h2, h3, h4 => by
      rw [show JVal.renderItems [e] = JVal.render e from rfl]
      exact feed_render e s h1 h2 h3 h4
  | e :: e2 :: es, s, h1, h2, h3, h4 => by
      rw [show JVal.renderItems (e :: e2 :: es)
            = JVal.render e ++ ',' :: JVal.renderItems (e2 :: es) from rfl]
      rw [feed_append]
      rw [feed_render e s h1 h2 h3 h4]
      rw [show feed { s with current := s.current ++ JVal.render e }
              (',' :: JVal.renderItems (e2 :: es))
            = feed (pstep { s with current := s.current ++ JVal.render e } ',')
              (JVal.renderItems (e2 :: es)) from rfl]
      rw [pstep_plain { s with current := s.current ++ JVal.render e }
            ',' h1 h2 h3 h4 (by decide) (by decide) (by decide)]
      rw [feed_renderElems (e2 :: es)
            { s with current := s.current ++ JVal.render e ++ [','] } h1 h2 h3 h4]
      simp

/-- Feeding comma-separated serialised object members inside an object. -/
theorem feed_renderFields : ∀ (fs : List (List Char × JVal)) (s : PState),
    s.done = false → s.escapeNext = false → s.inString = false →
    0 < s.braceDepth →
    feed s (JVal.renderMembers fs) = { s with current := s.current ++ JVal.renderMembers fs }
  | [], s, h1, h2, h3, h4 => by
      show s = _
      rw [show JVal.renderMembers [] = [] from rfl]
      simp
  | [(k, v)], s, h1, h2, h3, h4 => by
      rw [show JVal.renderMembers [(k, v)] = renderString k ++ ':' :: JVal.render v from rfl]
      rw [feed_append]
      rw [feed_renderString k s h1 h2 h3 h4]
      rw [show feed { s with current := s.current ++ renderString k }
              (':' :: JVal.render v)
            = feed (pstep { s with current := s.current ++ renderString k } ':')
              (JVal.render v) from rfl]
      rw [pstep_plain { s with current := s.current ++ renderString k }
            ':' h1 h2 h3 h4 (by decide) (by decide) (by decide)]
      rw [feed_render v
            { s with current := s.current ++ renderString k ++ [':'] } h1 h2 h3 h4]
      simp
  | (k, v) :: f2 :: fs, s, h1, h2, h3, h4 => by
      rw [show JVal.renderMembers ((k, v) :: f2 :: fs)
            = (renderString k ++ ':' :: JVal.render v)
              ++ ',' :: JVal.renderMembers (f2 :: fs)
          from rfl]
      rw [feed_append, feed_append]
      rw [feed_renderString k s h1 h2 h3 h4]
      rw [show feed { s with current := s.current ++ renderString k }
              (':' :: JVal.render v)
            = feed (pstep { s with current := s.current ++ renderString k } ':')
              (JVal.render v) from rfl]
      rw [pstep_plain { s with current := s.current ++ renderString k }
            ':' h1 h2 h3 h4 (by decide) (by decide) (by decide)]
      rw [feed_render v
            { s with current := s.current ++ renderString k ++ [':'] } h1 h2 h3 h4]
      rw [show feed
            { s with current := s.current ++ renderString k ++ [':'] ++ JVal.render v }
              (',' :: JVal.renderMembers (f2 :: fs))
            = feed (pstep
                { s with current := s.current ++ renderString k ++ [':'] ++ JVal.render v }
                ',') (JVal.renderMembers (f2 :: fs)) from rfl]
      rw [pstep_plain
            { s with current := s.current ++ renderString k ++ [':'] ++ JVal.render v }
            ',' h1 h2 h3 h4 (by decide) (by decide) (by decide)]
      rw [feed_renderFields (f2 :: fs)
            { s with current := s.current ++ renderString k ++ [':']
                ++ JVal.render v ++ [','] } h1 h2 h3 h4]
      simp

end

end Gateway

namespace Gateway

/-- At top level (depth 0, buffer empty), feeding one serialised object
emits exactly its bytes and returns to the same state. -/
theorem feed_topObject (fs : List (List Char × JVal)) (s : PState)
    (h1 : s.done = false) (h2 : s.escapeNext = false) (h3 : s.inString = false)
    (h0 : s.braceDepth = 0) (hcur : s.current = []) :
    feed s (JVal.render (JVal.jobj fs))
      = { s with emitted := s.emitted ++ [JVal.render (JVal.jobj fs)] } := by
  show feed s ('{' :: (JVal.renderMembers fs ++ ['}'])) = _
  rw [show feed s ('{' :: (JVal.renderMembers fs ++ ['}']))
        = feed (pstep s '{') (JVal.renderMembers fs ++ ['}']) from rfl]
  rw [pstep_open s h1 h2 h3]
  rw [feed_append]
  rw [feed_renderFields fs
        { s with braceDepth := s.braceDepth + 1, current := s.current ++ ['{'] }
        h1 h2 h3 (by simp; omega)]
  rw [show feed
        { s with braceDepth := s.braceDepth + 1,
                 current := s.current ++ ['{'] ++ JVal.renderMembers fs } ['}']
      = pstep
        { s with braceDepth := s.braceDepth + 1,
                 current := s.current ++ ['{'] ++ JVal.renderMembers fs } '}'
      from rfl]
  rw [pstep_close_emit
        { s with braceDepth := s.braceDepth + 1,
                 current := s.current ++ ['{'] ++ JVal.renderMembers fs }
        h1 h2 h3 (by simp [h0])]
  simp [JVal.render, hcur, h0]

/-- Separators at top level are consumed without any state change. -/
theorem feed_seps (cs : List Char) : ∀ (s : PState), s.done = false →
    s.escapeNext = false → s.inString = false → s.braceDepth = 0 →
    (∀ c ∈ cs, c = ',' ∨ c = '\r' ∨ c = '\n' ∨ c = ' ') →
    feed s cs = s := by
  induction cs with
  | nil => intro s _ _ _ _ _; rfl
  | cons c cs ih =>
      intro s h1 h2 h3 h0 hs
      show feed (pstep s c) cs = s
      rw [pstep_sep s c h1 h2 h3 h0 (hs c (List.mem_cons_self c cs))]
      exact ih s h1 h2 h3 h0 (fun x hx => hs x (List.mem_cons_of_mem c hx))

/-- The body of the upstream response between `[` and `]`: whitespace runs
interleaved with serialised objects (a leading separator run, then objects
each preceded by the next separator run; missing runs mean adjacency). -/
def streamBody : List (List Char) → List (List Char) → List Char
  | sep :: seps, x :: xs => sep ++ (x ++ streamBody seps xs)
  | sep :: _, [] => sep
  | [], xs => xs.flatten

/-- Feeding the whole body at top level emits exactly the serialised
objects, in order. -/
theorem feed_streamBody : ∀ (seps : List (List Char))
    (fss : List (List (List Char × JVal))) (s : PState),
    s.done = false → s.escapeNext = false → s.inString = false →
    s.braceDepth = 0 → s.current = [] →
    (∀ l ∈ seps, ∀ c ∈ l, c = ',' ∨ c = '\r' ∨ c = '\n' ∨ c = ' ') →
    feed s (streamBody seps (fss.map fun fs => JVal.render (JVal.jobj fs)))
      = { s with emitted := s.emitted ++ fss.map fun fs => JVal.render (JVal.jobj fs) }
  | sep :: seps, fs :: fss, s, h1, h2, h3, h0, hcur, hsep => by
      rw [show streamBody (sep :: seps)
            ((fs :: fss).map fun fs => JVal.render (JVal.jobj fs))
          = sep ++ (JVal.render (JVal.jobj fs)
              ++ streamBody seps (fss.map fun fs => JVal.render (JVal.jobj fs)))
          from rfl]
      rw [feed_append,
          feed_seps sep s h1 h2 h3 h0 (hsep sep (List.mem_cons_self sep seps)),
          feed_append,
          feed_topObject fs s h1 h2 h3 h0 hcur]
      rw [feed_streamBody seps fss
            { s with emitted := s.emitted ++ [JVal.render (JVal.jobj fs)] }
            h1 h2 h3 h0 hcur
            (fun l hl => hsep l (List.mem_cons_of_mem sep hl))]
      simp
  | sep :: seps, [], s, h1, h2, h3, h0, hcur, hsep => by
      rw [show streamBody (sep :: seps)
            (([] : List (List (List Char × JVal))).map fun fs => JVal.render (JVal.jobj fs))
          = sep from rfl]
      rw [feed_seps sep s h1 h2 h3 h0 (hsep sep (List.mem_cons_self sep seps))]
      simp
  | [], fs :: fss, s, h1, h2, h3, h0, hcur, hsep => by
      rw [show streamBody []
            ((fs :: fss).map fun fs => JVal.render (JVal.jobj fs))
          = JVal.render (JVal.jobj fs)
            ++ streamBody [] (fss.map fun fs => JVal.render (JVal.jobj fs))
          from rfl]
      rw [feed_append,
          feed_topObject fs s h1 h2 h3 h0 hcur]
      rw [feed_streamBody [] fss
            { s with emitted := s.emitted ++ [JVal.render (JVal.jobj fs)] }
            h1 h2 h3 h0 hcur (by simp)]
      simp
  | [], [], s, h1, h2, h3, h0, hcur, hsep => by
      show s = _
      simp

/-- **C4.** For every finite sequence of valid JSON objects and every
partition of the bracketed, separator-interleaved concatenation
`[ obj , obj , ... ]` into chunks — including chunks of length 1 that split
mid-string or mid-object — the incremental parser of `curlStreamRequest`
emits exactly the objects' serialised bytes, in order (each complete buffer
is then `JSON.parse`d and dispatched; on a valid serialisation the parse
succeeds and yields the object).  In particular a `}` inside a JSON string
does not terminate the object.  The final buffer is empty (the close
handler parses nothing extra) and the top-level `]` was consumed. -/
theorem stream_parser_exact (fss : List (List (List Char × JVal)))
    (seps : List (List Char)) (chunks : List (List Char))
    (_hwf : ∀ fs ∈ fss, JVal.wf (JVal.jobj fs))
    (hsep : ∀ l ∈ seps, ∀ c ∈ l, c = ',' ∨ c = '\r' ∨ c = '\n' ∨ c = ' ')
    (hjoin : chunks.flatten
      = '[' :: (streamBody seps (fss.map fun fs => JVal.render (JVal.jobj fs))
          ++ [']'])) :
    (processChunks chunks).emitted
        = fss.map (fun fs => JVal.render (JVal.jobj fs)) ∧
    (processChunks chunks).current = [] ∧
    (processChunks chunks).done = true := by
  rw [processChunks_eq_feed_join, hjoin]
  rw [show feed initState
        ('[' :: (streamBody seps (fss.map fun fs => JVal.render (JVal.jobj fs))
          ++ [']']))
      = feed (pstep initState '[')
          (streamBody seps (fss.map fun fs => JVal.render (JVal.jobj fs)) ++ [']'])
      from rfl]
  rw [pstep_openArray initState rfl rfl rfl rfl rfl]
  rw [feed_append]
  rw [feed_streamBody seps fss { initState with inArray := true }
        rfl rfl rfl rfl rfl hsep]
  rw [show feed { initState with inArray := true, emitted := initState.emitted ++ fss.map fun fs => JVal.render (JVal.jobj fs) } [']'] = pstep { initState with inArray := true, emitted := initState.emitted ++ fss.map fun fs => JVal.render (JVal.jobj fs) } ']' from rfl]
  rw [pstep_closeArray { initState with inArray := true, emitted := initState.emitted ++ fss.map fun fs => JVal.render (JVal.jobj fs) } rfl rfl rfl rfl rfl]
  exact ⟨by simp [initState], rfl, rfl⟩

end Gateway

namespace Gateway

/-- The single member of the first test object: key `a`, value the string
`x},{` (a `}` inside a string). -/
def c4Obj1 : List (List Char × JVal) := [(['a'], JVal.jstr ['x', '}', ',', '{'])]

/-- The single member of the second test object: key `b`, value `2`. -/
def c4Obj2 : List (List Char × JVal) := [(['b'], JVal.jnum 2)]

/-- The separator runs of the adversarial input: nothing before the first
object, then a space-comma-spaces-CRLF-space run. -/
def c4Seps : List (List Char) := [[], [' ', ',', ' ', ' ', '\r', '\n', ' ']]

/-- The spec's scenario-6 byte string (brackets, both objects and the
separator run). -/
def c4Input : List Char :=
  ['[', '{', '"', 'a', '"', ':', '"', 'x', '}', ',', '{', '"', '}',
   ' ', ',', ' ', ' ', '\r', '\n', ' ',
   '{', '"', 'b', '"', ':', '2', '}', ']']

/-- Witness for C4: the scenario-6 input split into chunks of length 1
emits exactly the two objects' bytes, in order. -/
theorem stream_parser_exact_witness :
    (processChunks (c4Input.map fun c => [c])).emitted
      = [JVal.render (JVal.jobj c4Obj1), JVal.render (JVal.jobj c4Obj2)] ∧
    JVal.render (JVal.jobj c4Obj1)
      = ['{', '"', 'a', '"', ':', '"', 'x', '}', ',', '{', '"', '}'] ∧
    JVal.render (JVal.jobj c4Obj2) = ['{', '"', 'b', '"', ':', '2', '}'] := by
  refine ⟨(stream_parser_exact [c4Obj1, c4Obj2] c4Seps
      (c4Input.map fun c => [c]) ?_ ?_ ?_).1, by decide, by decide⟩
  · intro fs hfs
    simp only [c4Obj1, c4Obj2, List.mem_cons, List.mem_singleton] at hfs
    rcases hfs with rfl | rfl | hfalse
    · simp only [JVal.wf, JVal.wfMembers]
      decide
    · simp only [JVal.wf, JVal.wfMembers]
      decide
    · simp at hfalse
  · decide
  · decide

end Gateway
